import Mathlib

/-!
# Distance-measuring game controller (ESP32/src/main.cpp)

A shallow embedding of the firmware in `ESP32/src/main.cpp`: the identity
lookup `fetchLatestUserId`, the ultrasonic driver `measureDistance`, the
submitter `sendDataToServer`, the button handler registered in `setup`, and
the polling `loop`.

Conventions of the embedding.

* The device is a record of the two globals, the output pin levels and an
  append-only trace of the operations performed (calls, WiFi status reads,
  HTTP requests, pin writes, delays, diagnostic prints).
* Everything the firmware reads from the outside world during one run of a
  function (WiFi status, HTTP status codes, the outcome of the JSON parse,
  the echo duration) is an explicit input record.
* `int` and `long` values are mathematical integers: the firmware does no
  arithmetic on the identifiers, and the distances that the conversion
  produces from a `long` duration are far inside the range of `int`.
* `float`/`double` arithmetic is modelled exactly: a positive binary
  floating-point number is a natural number of units `2^-k`, and rounding
  to `p` significant bits is round-to-nearest, ties-to-even.  All values
  that occur are far inside the normal range of both formats, so the
  exponent range plays no role.
-/

namespace DistanceGame

/-! ## Binary floating point -/

/-- Number of binary digits of `n`, counted by halving; `fuel` bounds the
number of halvings and `fuel = n` always suffices. -/
def bitLengthAux : Nat → Nat → Nat
  | 0, _ => 0
  | fuel + 1, n => if n = 0 then 0 else bitLengthAux fuel (n / 2) + 1

/-- Number of binary digits of `n` (`0` for `n = 0`). -/
def bitLength (n : Nat) : Nat := bitLengthAux n n

/-- Round the natural number `N` (a count of units in the last place of some
fixed scale) to `p` significant bits, to nearest, ties to even.  The result
is expressed in the same units. -/
def roundNearestEven (p N : Nat) : Nat :=
  let s := bitLength N - p
  let q := N / 2 ^ s
  let r := N % 2 ^ s
  if 2 * r < 2 ^ s then q * 2 ^ s
  else if 2 ^ s < 2 * r then (q + 1) * 2 ^ s
  else if q % 2 = 0 then q * 2 ^ s
  else (q + 1) * 2 ^ s

/-- Significand of the `double` literal `0.032`: the literal denotes
`double_0_032 / 2^57` (bit pattern `0x3FA0624DD2F1A9FC`). -/
def double_0_032 : Nat := 4611686018427388

/-- The magnitude of `static_cast<float>(duration * 0.032 / 2)` in units of
`2^-58` cm, for a duration of magnitude `t`:
`long -> double` is exact, the product is rounded to 53 bits, the division
by two is exact, the assignment to `float distance` rounds to 24 bits. -/
def floatDistance (t : Nat) : Nat :=
  roundNearestEven 24 (roundNearestEven 53 (t * double_0_032))

/-- Value returned by `measureDistance` for the echo duration `duration`
(the `long` that `pulseIn` yields): `static_cast<int>` truncates toward
zero. -/
def distanceOfDuration (duration : Int) : Int :=
  Int.sign duration * ((floatDistance duration.natAbs / 2 ^ 58 : Nat) : Int)

/-! ## Device, inputs and trace -/

/-- Diagnostic lines written to `Serial` (text and formatting are not
modelled, only which line is printed and the integer it carries). -/
inductive Msg where
  | response
  | gotId (id : Int)
  | jsonError
  | getFailed (code : Int)
  | wifiNotConnected
  | floatDistance (units : Int)
  | measured (cm : Int)
  | sent (code : Int)
  | sendFailed (code : Int)
  | noUserId
  | connecting
  | dot
  | wifiConnected
  deriving DecidableEq, Repr

/-- The two endpoints, `getIdUrl` and `submitUrl`. -/
inductive Url where
  | getIdUrl
  | submitUrl
  deriving DecidableEq, Repr

/-- Operations performed by the firmware, recorded in program order.  The
`enter*` events mark the entry of the three top-level functions. -/
inductive Event where
  | enterFetch
  | enterMeasure
  | enterSend (playerId distance : Int)
  | wifiBegin
  | wifiStatus (connected : Bool)
  | httpBegin (url : Url)
  | addHeader
  | httpGet (code : Int)
  | httpPost (playerId distance code : Int)
  | httpEnd
  | pinMode (pin : Nat) (output : Bool)
  | digitalWrite (pin : Nat) (high : Bool)
  | delayMicroseconds (us : Nat)
  | delay (ms : Nat)
  | pulseIn (pin : Nat) (duration : Int)
  | print (m : Msg)
  | buttonBegin
  | onPressedRegistered
  deriving DecidableEq, Repr

/-- An `http.POST` was issued. -/
def Event.isPost : Event → Bool
  | .httpPost _ _ _ => true
  | _ => false

/-- Entry of `sendDataToServer`. -/
def Event.isSendCall : Event → Bool
  | .enterSend _ _ => true
  | _ => false

/-- Entry of `fetchLatestUserId`. -/
def Event.isFetchCall : Event → Bool
  | .enterFetch => true
  | _ => false

/-- Entry of `measureDistance`. -/
def Event.isMeasureCall : Event → Bool
  | .enterMeasure => true
  | _ => false

/-- The echo timing `pulseIn` was performed. -/
def Event.isPulseIn : Event → Bool
  | .pulseIn _ _ => true
  | _ => false

/-- Any network request (`GET` or `POST`). -/
def Event.isRequest : Event → Bool
  | .httpGet _ => true
  | .httpPost _ _ _ => true
  | _ => false

/-- Entry of `sendDataToServer` or a POST: the events of a submission. -/
def Event.isSubmission (e : Event) : Bool := e.isSendCall || e.isPost

/-- Entry of one of the three top-level functions, or a POST. -/
def Event.isCallOrPost (e : Event) : Bool :=
  e.isFetchCall || e.isMeasureCall || e.isSendCall || e.isPost

/-- Outcome of `deserializeJson(doc, payload)` as far as the firmware looks
at it: either an error, or a document whose member `user_id` is absent
(`none`) or holds an integer.  (`username` is only printed.) -/
inductive JsonBody where
  | parseError
  | document (user_id : Option Int)
  deriving DecidableEq, Repr

/-- The conversion `currentPlayerId = doc["user_id"]` of the JSON library:
an absent member converts to the integer `0`. -/
def JsonBody.userIdAsInt : Option Int → Int
  | some n => n
  | none => 0

/-- What one run of `fetchLatestUserId` reads from the outside world. -/
structure FetchInput where
  wifiConnected : Bool
  httpCode : Int
  body : JsonBody
  deriving DecidableEq, Repr

/-- What one run of the button handler reads from the outside world. -/
structure CycleInput where
  fetch : FetchInput
  duration : Int
  wifiAtSend : Bool
  postCode : Int
  deriving DecidableEq, Repr

/-- The globals `currentPlayerId` and `measuredDistance`, the level of every
output pin (`true` is `HIGH`) and the trace of operations so far. -/
structure Device where
  currentPlayerId : Int
  measuredDistance : Int
  pins : Nat → Bool
  trace : List Event

def trigPin : Nat := 12

def echoPin : Nat := 13

/-- Append an operation to the trace. -/
def Device.emit (d : Device) (e : Event) : Device :=
  { d with trace := d.trace ++ [e] }

/-- Model of `digitalWrite(pin, level)`. -/
def digitalWrite (pin : Nat) (high : Bool) (d : Device) : Device :=
  { d with
    pins := fun p => if p = pin then high else d.pins p
    trace := d.trace ++ [Event.digitalWrite pin high] }

/-- The operations performed after the state `before` up to the state `after`. -/
def newEvents (before after : Device) : List Event :=
  after.trace.drop before.trace.length

/-! ## The firmware functions -/

/-- Model of `fetchLatestUserId` (lines 20-48). -/
def fetchLatestUserId (i : FetchInput) (d : Device) : Device :=
  let d := d.emit .enterFetch
  let d := d.emit (.wifiStatus i.wifiConnected)
  if i.wifiConnected then
    let d := d.emit (.httpBegin .getIdUrl)
    let d := d.emit (.httpGet i.httpCode)
    let d :=
      if i.httpCode = 200 then
        let d := d.emit (.print .response)
        match i.body with
        | .document uid =>
          let d : Device := { d with currentPlayerId := JsonBody.userIdAsInt uid }
          d.emit (.print (.gotId d.currentPlayerId))
        | .parseError => d.emit (.print .jsonError)
      else d.emit (.print (.getFailed i.httpCode))
    d.emit .httpEnd
  else d.emit (.print .wifiNotConnected)

/-- Model of `measureDistance` (lines 50-64): returns the distance and the
device after the trigger pulse and the echo timing. -/
def measureDistance (duration : Int) (d : Device) : Int × Device :=
  let d := d.emit .enterMeasure
  let d := digitalWrite trigPin false d
  let d := d.emit (.delayMicroseconds 2)
  let d := digitalWrite trigPin true d
  let d := d.emit (.delayMicroseconds 10)
  let d := digitalWrite trigPin false d
  let d := d.emit (.pulseIn echoPin duration)
  let d := d.emit (.print (.floatDistance (Int.sign duration * (floatDistance duration.natAbs : Int))))
  (distanceOfDuration duration, d)

/-- Model of `sendDataToServer` (lines 66-88). -/
def sendDataToServer (wifiConnected : Bool) (postCode : Int) (playerId distance : Int)
    (d : Device) : Device :=
  let d := d.emit (.enterSend playerId distance)
  let d := d.emit (.wifiStatus wifiConnected)
  if wifiConnected then
    let d := d.emit (.httpBegin .submitUrl)
    let d := d.emit .addHeader
    let d := d.emit (.httpPost playerId distance postCode)
    let d :=
      if postCode > 0 then d.emit (.print (.sent postCode))
      else d.emit (.print (.sendFailed postCode))
    d.emit .httpEnd
  else d

/-- Model of the handler passed to `button.onPressed` (lines 111-126): one
activation cycle.  `LED_BUILTIN` is the board's pin number for the built-in
LED. -/
def onPressed (LED_BUILTIN : Nat) (i : CycleInput) (d : Device) : Device :=
  let d := fetchLatestUserId i.fetch d
  let r := measureDistance i.duration d
  let d : Device := { r.2 with measuredDistance := r.1 }
  let d := d.emit (.print (.measured d.measuredDistance))
  let d :=
    if d.currentPlayerId > 0 then
      sendDataToServer i.wifiAtSend i.postCode d.currentPlayerId d.measuredDistance d
    else d.emit (.print .noUserId)
  let d := digitalWrite LED_BUILTIN false d
  let d := digitalWrite 32 false d
  let d := d.emit (.delay 4000)
  let d := digitalWrite LED_BUILTIN true d
  digitalWrite 32 true d

/-- What `setup` reads from the outside world: the successive results of the
test `WiFi.status() == WL_CONNECTED` in the wait loop, and the inputs of the
identity lookup made at boot. -/
structure BootInput where
  wifiPoll : Nat → Bool
  fetch : FetchInput

/-- The state at power-on: the initialisers of the two globals, all outputs
low, nothing done yet. -/
def powerOn : Device :=
  { currentPlayerId := -1, measuredDistance := 150, pins := fun _ => false, trace := [] }

/-- Model of the loop `while (WiFi.status() != WL_CONNECTED) { delay(500); ... }`
(lines 102-105); `fuel` bounds the number of tests of the condition, `k` is
the index of the next test. -/
def awaitWiFi (poll : Nat → Bool) : Nat → Nat → Device → Option Device
  | 0, _, _ => none
  | fuel + 1, k, d =>
    let d := d.emit (.wifiStatus (poll k))
    if poll k then some d
    else awaitWiFi poll fuel (k + 1) ((d.emit (.delay 500)).emit (.print .dot))

/-- Model of `setup` (lines 90-127); `none` when the wait loop has not ended
within `fuel` tests of its condition.  (`Serial.begin` is not recorded.) -/
def setup (LED_BUILTIN : Nat) (b : BootInput) (fuel : Nat) : Option Device :=
  let d := powerOn
  let d := d.emit (.pinMode trigPin true)
  let d := d.emit (.pinMode echoPin false)
  let d := d.emit (.pinMode LED_BUILTIN true)
  let d := d.emit (.pinMode 32 true)
  let d := digitalWrite LED_BUILTIN true d
  let d := digitalWrite 32 true d
  let d := d.emit .wifiBegin
  let d := d.emit (.print .connecting)
  match awaitWiFi b.wifiPoll fuel 0 d with
  | none => none
  | some d =>
    let d := d.emit (.print .wifiConnected)
    let d := fetchLatestUserId b.fetch d
    let d := d.emit .buttonBegin
    some (d.emit .onPressedRegistered)

/-- The device before the wait loop of `setup`. -/
def beforeWait (LED_BUILTIN : Nat) : Device :=
  ((digitalWrite 32 true (digitalWrite LED_BUILTIN true
    ((((powerOn.emit (.pinMode trigPin true)).emit (.pinMode echoPin false)).emit
      (.pinMode LED_BUILTIN true)).emit (.pinMode 32 true)))).emit .wifiBegin).emit
    (.print .connecting)

/-! ## The button and the polling loop -/

/-- Modelled from the spec: the state of the Input Trigger of §4.4 (the
object `button` of the button library, whose code is not among the sources):
the time at which the current press was first sampled, and whether this press
has already produced its activation event. -/
structure Trigger where
  pressedSince : Option Nat
  notified : Bool
  deriving DecidableEq, Repr

/-- Modelled from the spec: the Input Trigger with the button released. -/
def Trigger.idle : Trigger := { pressedSince := none, notified := false }

/-- Modelled from the spec: one poll `button.read()` of the Input Trigger of
§4.4, whose code is not among the sources.  "A press is recognized only after
the raw signal has been stable in the pressed state for a minimum settle
duration, and a single logical event is emitted exactly once per physical
press, not once per tick while held."  `raw` is the sampled signal (`true` is
pressed), `now` the time of the poll in milliseconds; the result is the new
state and whether this poll emits the activation event. -/
def Trigger.read (settle : Nat) (raw : Bool) (now : Nat) (b : Trigger) : Trigger × Bool :=
  if raw then
    let since := b.pressedSince.getD now
    if b.notified = false ∧ settle ≤ now - since then
      ({ pressedSince := some since, notified := true }, true)
    else ({ pressedSince := some since, notified := b.notified }, false)
  else (Trigger.idle, false)

/-- The running system between two polls: the time in milliseconds, the
button, the device and the number of cycles run so far. -/
structure System where
  now : Nat
  button : Trigger
  device : Device
  cycles : Nat

/-- The outside world over time: the raw button signal at every millisecond,
and for the `n`-th cycle its inputs and the time in milliseconds it blocks in
the network calls and the echo wait, on top of the 4000 ms delay. -/
structure World where
  raw : Nat → Bool
  input : Nat → CycleInput
  busy : Nat → Nat

/-- Model of `loop` (lines 129-131): one poll of the button.  The handler
runs inside `button.read()`, to completion, before `loop` returns; an idle
pass of `loop` takes one tick of 1 ms. -/
def loop (settle LED_BUILTIN : Nat) (w : World) (s : System) : System :=
  let r := Trigger.read settle (w.raw s.now) s.now s.button
  if r.2 then
    { now := s.now + (w.busy s.cycles + 4000)
      button := r.1
      device := onPressed LED_BUILTIN (w.input s.cycles) s.device
      cycles := s.cycles + 1 }
  else { s with now := s.now + 1, button := r.1 }

/-- The system before the `m`-th pass of `loop`, started in `s0`. -/
def run (settle LED_BUILTIN : Nat) (w : World) (s0 : System) : Nat → System
  | 0 => s0
  | m + 1 => loop settle LED_BUILTIN w (run settle LED_BUILTIN w s0 m)

/-- The world `w` with one more press of the button, from time `a` up to but
not including time `b`. -/
def World.withPress (w : World) (a b : Nat) : World :=
  { w with raw := fun t => if a ≤ t ∧ t < b then true else w.raw t }

/-! ## Expected traces

Closed forms of what each function appends to the trace; the lemmas
`*_trace` below show that the functions append exactly these lists. -/

/-- Value of `currentPlayerId` after `fetchLatestUserId`, given its value
`old` before. -/
def fetchedId (i : FetchInput) (old : Int) : Int :=
  if i.wifiConnected = true ∧ i.httpCode = 200 then
    match i.body with
    | .document uid => JsonBody.userIdAsInt uid
    | .parseError => old
  else old

/-- Operations of one run of `fetchLatestUserId`. -/
def fetchEvents (i : FetchInput) : List Event :=
  [.enterFetch, .wifiStatus i.wifiConnected] ++
    if i.wifiConnected then
      [.httpBegin .getIdUrl, .httpGet i.httpCode] ++
        (if i.httpCode = 200 then
          [.print .response] ++
            (match i.body with
              | .document uid => [.print (.gotId (JsonBody.userIdAsInt uid))]
              | .parseError => [.print .jsonError])
        else [.print (.getFailed i.httpCode)]) ++ [.httpEnd]
    else [.print .wifiNotConnected]

/-- Operations of one run of `measureDistance`. -/
def measureEvents (duration : Int) : List Event :=
  [.enterMeasure, .digitalWrite trigPin false, .delayMicroseconds 2,
    .digitalWrite trigPin true, .delayMicroseconds 10, .digitalWrite trigPin false,
    .pulseIn echoPin duration,
    .print (.floatDistance (Int.sign duration * (floatDistance duration.natAbs : Int)))]

/-- Operations of one run of `sendDataToServer`. -/
def sendEvents (wifiConnected : Bool) (postCode playerId distance : Int) : List Event :=
  [.enterSend playerId distance, .wifiStatus wifiConnected] ++
    if wifiConnected then
      [.httpBegin .submitUrl, .addHeader, .httpPost playerId distance postCode,
        if postCode > 0 then .print (.sent postCode) else .print (.sendFailed postCode),
        .httpEnd]
    else []

/-- The cooldown that ends every cycle. -/
def cooldownEvents (LED_BUILTIN : Nat) : List Event :=
  [.digitalWrite LED_BUILTIN false, .digitalWrite 32 false, .delay 4000,
    .digitalWrite LED_BUILTIN true, .digitalWrite 32 true]

/-- Operations of a cycle before its cooldown, given the value `old` of
`currentPlayerId` before the cycle. -/
def workEvents (i : CycleInput) (old : Int) : List Event :=
  fetchEvents i.fetch ++ measureEvents i.duration ++
    [.print (.measured (distanceOfDuration i.duration))] ++
    if fetchedId i.fetch old > 0 then
      sendEvents i.wifiAtSend i.postCode (fetchedId i.fetch old) (distanceOfDuration i.duration)
    else [.print .noUserId]

/-- Two systems that agree on everything but possibly the button. -/
def SameDevice (s x : System) : Prop :=
  x.now = s.now ∧ x.device = s.device ∧ x.cycles = s.cycles

/-! ## Concrete inputs -/

/-- A device whose token was resolved earlier to player `3`. -/
def resolvedDevice : Device :=
  { currentPlayerId := 3, measuredDistance := 150, pins := fun _ => true, trace := [] }

/-- A cycle with the network down throughout; the echo lasts 3563 µs. -/
def offlineCycle : CycleInput :=
  { fetch := { wifiConnected := false, httpCode := 0, body := .parseError }
    duration := 3563, wifiAtSend := false, postCode := 0 }

/-- Scenario B: the lookup answers `user_id = 3`, the echo lasts 3563 µs
(57 cm), the submission is answered with status 200. -/
def scenarioB : CycleInput :=
  { fetch := { wifiConnected := true, httpCode := 200, body := .document (some 3) }
    duration := 3563, wifiAtSend := true, postCode := 200 }

/-- Scenario D: as scenario B with no echo (duration 0). -/
def scenarioD : CycleInput :=
  { fetch := { wifiConnected := true, httpCode := 200, body := .document (some 3) }
    duration := 0, wifiAtSend := true, postCode := 200 }

/-- The lookup answers status 200 with a JSON document without `user_id`. -/
def emptyDocumentCycle : CycleInput :=
  { fetch := { wifiConnected := true, httpCode := 200, body := .document none }
    duration := 3563, wifiAtSend := true, postCode := 200 }

/-- Startup with the network down for ever. -/
def bootOffline : BootInput :=
  { wifiPoll := fun _ => false, fetch := offlineCycle.fetch }

/-- Startup in which the WiFi is reported connected at the third test of the
wait loop and is down again when the boot lookup runs. -/
def bootFlaky : BootInput :=
  { wifiPoll := fun k => decide (2 ≤ k), fetch := offlineCycle.fetch }

/-- Scenario C without the second press: the button is pressed during the
first 100 ms; every cycle runs with the inputs of scenario B and blocks for
no longer than its 4000 ms delay. -/
def scenarioC : World :=
  { raw := fun t => decide (t < 100), input := fun _ => scenarioB, busy := fun _ => 0 }

/-- The system when `loop` is first called after a boot that left the token
unresolved. -/
def afterBoot : System :=
  { now := 0, button := Trigger.idle, device := powerOn, cycles := 0 }

/-! ## Lemmas -/

/-! ### Facts about rounding -/

/-- The significand `double_0_032` has 53 bits and `double_0_032 / 2^57` lies
within `12 / (125 * 2^57)`, less than half a unit in the last place, of
`0.032 = 4/125`: it is the `double` nearest to the literal, and it lies above
it. -/
theorem double_0_032_nearest :
    2 ^ 52 ≤ double_0_032 ∧ double_0_032 < 2 ^ 53 ∧
      125 * double_0_032 = 4 * 2 ^ 57 + 12 := by
  unfold double_0_032
  norm_num

theorem bitLengthAux_pos (fuel n : Nat) (hn : n ≠ 0) (hf : n ≤ fuel) :
    0 < bitLengthAux fuel n := by
  cases fuel with
  | zero => omega
  | succ f => simp [bitLengthAux, hn]

theorem two_pow_bitLengthAux_le (fuel : Nat) :
    ∀ n, n ≠ 0 → n ≤ fuel → 2 ^ (bitLengthAux fuel n - 1) ≤ n := by
  induction fuel with
  | zero => intro n hn hf; omega
  | succ f ih =>
    intro n hn hf
    simp only [bitLengthAux, hn, if_false, Nat.add_sub_cancel]
    by_cases h2 : n / 2 = 0
    · have : bitLengthAux f (n / 2) = 0 := by
        rw [h2]; cases f <;> simp [bitLengthAux]
      rw [this]; simp; omega
    · have hle : n / 2 ≤ f := by omega
      have hpos := bitLengthAux_pos f (n / 2) h2 hle
      have h := ih (n / 2) h2 hle
      have hsplit : bitLengthAux f (n / 2) = (bitLengthAux f (n / 2) - 1) + 1 := by omega
      rw [hsplit, pow_succ]
      omega

theorem lt_two_pow_bitLengthAux (fuel : Nat) :
    ∀ n, n ≤ fuel → n < 2 ^ bitLengthAux fuel n := by
  induction fuel with
  | zero => intro n hf; simp [bitLengthAux]; omega
  | succ f ih =>
    intro n hf
    by_cases hn : n = 0
    · simp [bitLengthAux, hn]
    · simp only [bitLengthAux, hn, if_false]
      have h := ih (n / 2) (by omega)
      rw [pow_succ]
      omega

/-- For `n ≠ 0` the leading binary digit of `n` has weight `2^(bitLength n - 1)`. -/
theorem two_pow_bitLength_le (n : Nat) (hn : n ≠ 0) : 2 ^ (bitLength n - 1) ≤ n :=
  two_pow_bitLengthAux_le n n hn (le_refl n)

theorem lt_two_pow_bitLength (n : Nat) : n < 2 ^ bitLength n :=
  lt_two_pow_bitLengthAux n n (le_refl n)

theorem roundNearestEven_ge_floor (p N : Nat) :
    N / 2 ^ (bitLength N - p) * 2 ^ (bitLength N - p) ≤ roundNearestEven p N := by
  unfold roundNearestEven
  simp only
  split_ifs <;> first | exact le_refl _ | exact Nat.mul_le_mul_right _ (Nat.le_succ _)

/-- The rounded value is a multiple of the unit in the last place
`2^(bitLength N - p)` and differs from `N` by at most half that unit. -/
theorem roundNearestEven_near (p N : Nat) :
    2 ^ (bitLength N - p) ∣ roundNearestEven p N ∧
      2 * (roundNearestEven p N - N) ≤ 2 ^ (bitLength N - p) ∧
      2 * (N - roundNearestEven p N) ≤ 2 ^ (bitLength N - p) := by
  have hdm : 2 ^ (bitLength N - p) * (N / 2 ^ (bitLength N - p)) +
      N % 2 ^ (bitLength N - p) = N := Nat.div_add_mod N _
  have hlt : N % 2 ^ (bitLength N - p) < 2 ^ (bitLength N - p) :=
    Nat.mod_lt _ (Nat.two_pow_pos _)
  have hc : N / 2 ^ (bitLength N - p) * 2 ^ (bitLength N - p) =
      2 ^ (bitLength N - p) * (N / 2 ^ (bitLength N - p)) := Nat.mul_comm _ _
  have hs : (N / 2 ^ (bitLength N - p) + 1) * 2 ^ (bitLength N - p) =
      2 ^ (bitLength N - p) * (N / 2 ^ (bitLength N - p)) + 2 ^ (bitLength N - p) := by
    ring
  unfold roundNearestEven
  simp only
  split_ifs with h1 h2 h3
  · exact ⟨Dvd.intro_left _ rfl, by omega, by omega⟩
  · exact ⟨Dvd.intro_left _ rfl, by omega, by omega⟩
  · exact ⟨Dvd.intro_left _ rfl, by omega, by omega⟩
  · exact ⟨Dvd.intro_left _ rfl, by omega, by omega⟩

/-- Rounding does not go below a representable value that `N` is not below. -/
theorem roundNearestEven_lower (p N a e : Nat) (hp : 0 < p) (ha : a < 2 ^ p)
    (h : a * 2 ^ e ≤ N) : a * 2 ^ e ≤ roundNearestEven p N := by
  refine le_trans ?_ (roundNearestEven_ge_floor p N)
  by_cases hN : N = 0
  · subst hN
    simpa using h
  set s := bitLength N - p with hs
  have hB : 0 < 2 ^ s := (Nat.two_pow_pos _)
  by_cases hes : s ≤ e
  · obtain ⟨d, rfl⟩ := Nat.exists_eq_add_of_le hes
    have h1 : a * 2 ^ d * 2 ^ s ≤ N := by
      rw [pow_add] at h
      calc a * 2 ^ d * 2 ^ s = a * (2 ^ s * 2 ^ d) := by ring
        _ ≤ N := h
    have h2 : a * 2 ^ d ≤ N / 2 ^ s := (Nat.le_div_iff_mul_le hB).2 h1
    calc a * 2 ^ (s + d) = a * 2 ^ d * 2 ^ s := by rw [pow_add]; ring
      _ ≤ N / 2 ^ s * 2 ^ s := Nat.mul_le_mul_right _ h2
  · have hlt : e < s := Nat.lt_of_not_le hes
    have hL : bitLength N - 1 = (p - 1) + s := by omega
    have hpow : 2 ^ (bitLength N - 1) ≤ N := two_pow_bitLength_le N hN
    have h3 : 2 ^ (p - 1) * 2 ^ s ≤ N := by
      rw [← pow_add, ← hL]; exact hpow
    have h4 : 2 ^ (p - 1) ≤ N / 2 ^ s := (Nat.le_div_iff_mul_le hB).2 h3
    have h5 : a * 2 ^ e < 2 ^ p * 2 ^ e := Nat.mul_lt_mul_of_pos_right ha ((Nat.two_pow_pos _))
    have h6 : 2 ^ p * 2 ^ e ≤ 2 ^ (p - 1) * 2 ^ s := by
      rw [← pow_add, ← pow_add]
      exact Nat.pow_le_pow_right (by decide) (by omega)
    calc a * 2 ^ e ≤ 2 ^ p * 2 ^ e := le_of_lt h5
      _ ≤ 2 ^ (p - 1) * 2 ^ s := h6
      _ ≤ N / 2 ^ s * 2 ^ s := Nat.mul_le_mul_right _ h4

/-- Rounding does not go above a representable value that `N` is not above. -/
theorem roundNearestEven_upper (p N c e : Nat) (hp : 0 < p) (hc : c < 2 ^ p)
    (h : N ≤ c * 2 ^ e) : roundNearestEven p N ≤ c * 2 ^ e := by
  have hfloor : N / 2 ^ (bitLength N - p) * 2 ^ (bitLength N - p) ≤ c * 2 ^ e :=
    le_trans (Nat.div_mul_le_self _ _) h
  have hup : 0 < N % 2 ^ (bitLength N - p) →
      (N / 2 ^ (bitLength N - p) + 1) * 2 ^ (bitLength N - p) ≤ c * 2 ^ e := by
    intro hr
    set s := bitLength N - p with hs
    have hB : 0 < 2 ^ s := (Nat.two_pow_pos _)
    have hN : N ≠ 0 := by
      rintro rfl
      simp at hr
    by_cases hes : s ≤ e
    · obtain ⟨d, rfl⟩ := Nat.exists_eq_add_of_le hes
      have hdecomp : 2 ^ s * (N / 2 ^ s) + N % 2 ^ s = N := Nat.div_add_mod N (2 ^ s)
      have h1 : N / 2 ^ s < c * 2 ^ d := by
        by_contra hcon
        push_neg at hcon
        have : c * 2 ^ d * 2 ^ s ≤ N / 2 ^ s * 2 ^ s := Nat.mul_le_mul_right _ hcon
        have h' : N ≤ c * 2 ^ d * 2 ^ s := by
          calc N ≤ c * 2 ^ (s + d) := h
            _ = c * 2 ^ d * 2 ^ s := by rw [pow_add]; ring
        have : 2 ^ s * (N / 2 ^ s) = N / 2 ^ s * 2 ^ s := Nat.mul_comm _ _
        omega
      calc (N / 2 ^ s + 1) * 2 ^ s ≤ c * 2 ^ d * 2 ^ s := Nat.mul_le_mul_right _ h1
        _ = c * 2 ^ (s + d) := by rw [pow_add]; ring
    · exfalso
      have hlt : e < s := Nat.lt_of_not_le hes
      have hL : bitLength N - 1 = (p - 1) + s := by omega
      have hpow : 2 ^ (bitLength N - 1) ≤ N := two_pow_bitLength_le N hN
      have h5 : c * 2 ^ e < 2 ^ p * 2 ^ e :=
        Nat.mul_lt_mul_of_pos_right hc ((Nat.two_pow_pos _))
      have h6 : 2 ^ p * 2 ^ e ≤ 2 ^ (bitLength N - 1) := by
        rw [← pow_add]
        exact Nat.pow_le_pow_right (by decide) (by omega)
      omega
  unfold roundNearestEven
  simp only
  split_ifs with h1 h2 h3
  · exact hfloor
  · exact hup (by omega)
  · exact hfloor
  · refine hup ?_
    have hB : 0 < 2 ^ (bitLength N - p) := (Nat.two_pow_pos _)
    omega

/-- Both roundings keep a value between two neighbouring points that are
representable with 24 bits. -/
theorem floatDistance_between (t a c e f : Nat) (ha : a < 2 ^ 24) (hc : c < 2 ^ 24)
    (hlo : a * 2 ^ e ≤ t * double_0_032) (hhi : t * double_0_032 ≤ c * 2 ^ f) :
    a * 2 ^ e ≤ floatDistance t ∧ floatDistance t ≤ c * 2 ^ f := by
  have ha53 : a < 2 ^ 53 := lt_trans ha (by norm_num)
  have hc53 : c < 2 ^ 53 := lt_trans hc (by norm_num)
  unfold floatDistance
  exact ⟨roundNearestEven_lower 24 _ a e (by decide) ha
      (roundNearestEven_lower 53 _ a e (by decide) ha53 hlo),
    roundNearestEven_upper 24 _ c f (by decide) hc
      (roundNearestEven_upper 53 _ c f (by decide) hc53 hhi)⟩

/-- For durations up to one second the float result truncates to
`floor(2 t / 125)`: the exact product lies between the representable values
`k` and `k + 1 - 2^-10` (in cm), and so do both roundings. -/
theorem floatDistance_floor (t : Nat) (ht : t ≤ 1000000) :
    floatDistance t / 2 ^ 58 = 2 * t / 125 := by
  have hk : 2 * t / 125 ≤ 16000 := by omega
  have hM : double_0_032 = 4611686018427388 := rfl
  have h := floatDistance_between t (2 * t / 125) ((2 * t / 125 + 1) * 2 ^ 10 - 1) 58 48
    (by norm_num; omega) (by norm_num; omega)
    (by rw [hM]; norm_num; omega) (by rw [hM]; norm_num; omega)
  obtain ⟨h1, h2⟩ := h
  have h3 : ((2 * t / 125 + 1) * 2 ^ 10 - 1) * 2 ^ 48 < (2 * t / 125 + 1) * 2 ^ 58 := by
    norm_num; omega
  have hpos : 0 < 2 ^ 58 := by norm_num
  apply Nat.le_antisymm
  · exact Nat.le_of_lt_succ ((Nat.div_lt_iff_lt_mul hpos).2 (lt_of_le_of_lt h2 h3))
  · exact (Nat.le_div_iff_mul_le hpos).2 h1

/-! ### Facts about the firmware functions -/

theorem newEvents_of_trace (before after : Device) (evs : List Event)
    (h : after.trace = before.trace ++ evs) : newEvents before after = evs := by
  simp [newEvents, h]

theorem fetch_trace (i : FetchInput) (d : Device) :
    (fetchLatestUserId i d).trace = d.trace ++ fetchEvents i := by
  unfold fetchLatestUserId fetchEvents
  rcases i with ⟨w, c, b⟩
  cases w <;> by_cases hc : c = 200 <;> cases b <;> simp [Device.emit, hc]

theorem fetch_currentPlayerId (i : FetchInput) (d : Device) :
    (fetchLatestUserId i d).currentPlayerId = fetchedId i d.currentPlayerId := by
  unfold fetchLatestUserId fetchedId
  rcases i with ⟨w, c, b⟩
  cases w <;> by_cases hc : c = 200 <;> cases b <;> simp [Device.emit, hc]

theorem fetch_pins (i : FetchInput) (d : Device) :
    (fetchLatestUserId i d).pins = d.pins := by
  unfold fetchLatestUserId
  rcases i with ⟨w, c, b⟩
  cases w <;> by_cases hc : c = 200 <;> cases b <;> simp [Device.emit, hc]

theorem measure_value (duration : Int) (d : Device) :
    (measureDistance duration d).1 = distanceOfDuration duration := rfl

theorem measure_trace (duration : Int) (d : Device) :
    (measureDistance duration d).2.trace = d.trace ++ measureEvents duration := by
  simp [measureDistance, measureEvents, Device.emit, digitalWrite]

theorem measure_currentPlayerId (duration : Int) (d : Device) :
    (measureDistance duration d).2.currentPlayerId = d.currentPlayerId := rfl

theorem send_trace (w : Bool) (code playerId distance : Int) (d : Device) :
    (sendDataToServer w code playerId distance d).trace =
      d.trace ++ sendEvents w code playerId distance := by
  unfold sendDataToServer sendEvents
  cases w <;> by_cases hc : code > 0 <;> simp [Device.emit, hc]

theorem send_currentPlayerId (w : Bool) (code playerId distance : Int) (d : Device) :
    (sendDataToServer w code playerId distance d).currentPlayerId = d.currentPlayerId := by
  unfold sendDataToServer
  cases w <;> by_cases hc : code > 0 <;> simp [Device.emit, hc]

theorem send_pins (w : Bool) (code playerId distance : Int) (d : Device) :
    (sendDataToServer w code playerId distance d).pins = d.pins := by
  unfold sendDataToServer
  cases w <;> by_cases hc : code > 0 <;> simp [Device.emit, hc]

theorem onPressed_trace (L : Nat) (i : CycleInput) (d : Device) :
    (onPressed L i d).trace =
      d.trace ++ (workEvents i d.currentPlayerId ++ cooldownEvents L) := by
  unfold onPressed workEvents cooldownEvents
  by_cases h : fetchedId i.fetch d.currentPlayerId > 0
  · simp [digitalWrite, Device.emit, measure_trace, measure_value, measure_currentPlayerId,
      fetch_trace, fetch_currentPlayerId, send_trace, h]
  · simp [digitalWrite, Device.emit, measure_trace, measure_value, measure_currentPlayerId,
      fetch_trace, fetch_currentPlayerId, send_trace, h]

theorem onPressed_currentPlayerId (L : Nat) (i : CycleInput) (d : Device) :
    (onPressed L i d).currentPlayerId = fetchedId i.fetch d.currentPlayerId := by
  unfold onPressed
  by_cases h : fetchedId i.fetch d.currentPlayerId > 0
  · simp [digitalWrite, Device.emit, measure_currentPlayerId, fetch_currentPlayerId,
      send_currentPlayerId, h]
  · simp [digitalWrite, Device.emit, measure_currentPlayerId, fetch_currentPlayerId,
      send_currentPlayerId, h]

theorem onPressed_measuredDistance (L : Nat) (i : CycleInput) (d : Device) :
    (onPressed L i d).measuredDistance = distanceOfDuration i.duration := by
  unfold onPressed sendDataToServer
  by_cases h : fetchedId i.fetch d.currentPlayerId > 0 <;>
    cases hw : i.wifiAtSend <;> by_cases hc : i.postCode > 0 <;>
    simp [digitalWrite, Device.emit, measure_currentPlayerId, fetch_currentPlayerId,
      measure_value, h, hc]

theorem onPressed_newEvents (L : Nat) (i : CycleInput) (d : Device) :
    newEvents d (onPressed L i d) = workEvents i d.currentPlayerId ++ cooldownEvents L :=
  newEvents_of_trace _ _ _ (onPressed_trace L i d)

theorem onPressed_pins (L : Nat) (i : CycleInput) (d : Device) :
    (onPressed L i d).pins L = true ∧ (onPressed L i d).pins 32 = true := by
  unfold onPressed
  simp [digitalWrite, Device.emit]

theorem fetchEvents_submission (i : FetchInput) :
    (fetchEvents i).filter Event.isSubmission = [] := by
  rcases i with ⟨w, c, b⟩
  cases w <;> by_cases hc : c = 200 <;> cases b <;>
    simp [fetchEvents, hc, Event.isSubmission, Event.isSendCall, Event.isPost]

theorem measureEvents_submission (t : Int) :
    (measureEvents t).filter Event.isSubmission = [] := by
  simp [measureEvents, Event.isSubmission, Event.isSendCall, Event.isPost]

theorem cooldownEvents_submission (L : Nat) :
    (cooldownEvents L).filter Event.isSubmission = [] := by
  simp [cooldownEvents, Event.isSubmission, Event.isSendCall, Event.isPost]

theorem sendEvents_submission (w : Bool) (c p m : Int) :
    (sendEvents w c p m).filter Event.isSubmission =
      Event.enterSend p m :: (if w then [Event.httpPost p m c] else []) := by
  cases w <;> by_cases hc : c > 0 <;>
    simp [sendEvents, hc, Event.isSubmission, Event.isSendCall, Event.isPost]

/-- The submission events of a cycle: none when the token is unresolved after
the lookup, otherwise one call of `sendDataToServer` and, when that function
finds the WiFi connected, one POST. -/
theorem onPressed_submission (L : Nat) (i : CycleInput) (d : Device) :
    (newEvents d (onPressed L i d)).filter Event.isSubmission =
      if fetchedId i.fetch d.currentPlayerId > 0 then
        Event.enterSend (fetchedId i.fetch d.currentPlayerId) (distanceOfDuration i.duration) ::
          (if i.wifiAtSend then
            [Event.httpPost (fetchedId i.fetch d.currentPlayerId)
              (distanceOfDuration i.duration) i.postCode]
          else [])
      else [] := by
  rw [onPressed_newEvents]
  unfold workEvents
  simp only [List.filter_append, fetchEvents_submission, measureEvents_submission,
    cooldownEvents_submission, List.append_nil, List.nil_append]
  by_cases h : fetchedId i.fetch d.currentPlayerId > 0
  · simp only [h, if_true, sendEvents_submission]
    simp [Event.isSubmission, Event.isSendCall, Event.isPost]
  · simp [h, Event.isSubmission, Event.isSendCall, Event.isPost]

theorem filter_isPost_eq (l : List Event) :
    l.filter Event.isPost = (l.filter Event.isSubmission).filter Event.isPost := by
  rw [List.filter_filter]
  congr 1
  funext e
  cases e <;> simp [Event.isSubmission, Event.isSendCall, Event.isPost]

theorem filter_isSendCall_eq (l : List Event) :
    l.filter Event.isSendCall = (l.filter Event.isSubmission).filter Event.isSendCall := by
  rw [List.filter_filter]
  congr 1
  funext e
  cases e <;> simp [Event.isSubmission, Event.isSendCall, Event.isPost]

theorem not_submission_of_filter_nil (l : List Event)
    (h : l.filter Event.isSubmission = []) :
    ∀ e ∈ l, e.isSendCall = false ∧ e.isPost = false := by
  intro e he
  have := (List.filter_eq_nil_iff.1 h) e he
  simpa [Event.isSubmission] using this

theorem fetchEvents_callOrPost (i : FetchInput) :
    (fetchEvents i).filter Event.isCallOrPost = [Event.enterFetch] := by
  rcases i with ⟨w, c, b⟩
  cases w <;> by_cases hc : c = 200 <;> cases b <;>
    simp [fetchEvents, hc, Event.isCallOrPost, Event.isFetchCall, Event.isMeasureCall,
      Event.isSendCall, Event.isPost]

theorem measureEvents_callOrPost (t : Int) :
    (measureEvents t).filter Event.isCallOrPost = [Event.enterMeasure] := by
  simp [measureEvents, Event.isCallOrPost, Event.isFetchCall, Event.isMeasureCall,
    Event.isSendCall, Event.isPost]

theorem cooldownEvents_callOrPost (L : Nat) :
    (cooldownEvents L).filter Event.isCallOrPost = [] := by
  simp [cooldownEvents, Event.isCallOrPost, Event.isFetchCall, Event.isMeasureCall,
    Event.isSendCall, Event.isPost]

theorem sendEvents_callOrPost (w : Bool) (c p m : Int) :
    (sendEvents w c p m).filter Event.isCallOrPost =
      (sendEvents w c p m).filter Event.isSubmission := by
  cases w <;> by_cases hc : c > 0 <;>
    simp [sendEvents, hc, Event.isCallOrPost, Event.isSubmission, Event.isFetchCall,
      Event.isMeasureCall, Event.isSendCall, Event.isPost]

theorem fetchEvents_pulseIn (i : FetchInput) :
    (fetchEvents i).filter Event.isPulseIn = [] := by
  rcases i with ⟨w, c, b⟩
  cases w <;> by_cases hc : c = 200 <;> cases b <;>
    simp [fetchEvents, hc, Event.isPulseIn]

theorem sendEvents_pulseIn (w : Bool) (c p m : Int) :
    (sendEvents w c p m).filter Event.isPulseIn = [] := by
  cases w <;> by_cases hc : c > 0 <;> simp [sendEvents, hc, Event.isPulseIn]

/-! ### Facts about `setup` -/

/-- The wait loop only reads the WiFi status, delays and prints: it leaves
the globals and the pins alone and appends no milestone. -/
theorem awaitWiFi_some (poll : Nat → Bool) (fuel : Nat) :
    ∀ (k : Nat) (d x : Device), awaitWiFi poll fuel k d = some x →
      x.pins = d.pins ∧ x.currentPlayerId = d.currentPlayerId ∧
        x.measuredDistance = d.measuredDistance ∧
        ∃ evs, x.trace = d.trace ++ evs ∧ evs.filter Event.isCallOrPost = [] := by
  induction fuel with
  | zero => intro k d x h; simp [awaitWiFi] at h
  | succ f ih =>
    intro k d x h
    unfold awaitWiFi at h
    by_cases hp : poll k = true
    · simp only [hp, if_true, Option.some.injEq] at h
      subst h
      refine ⟨rfl, rfl, rfl, [Event.wifiStatus true], ?_, ?_⟩
      · simp [Device.emit]
      · simp [Event.isCallOrPost, Event.isFetchCall, Event.isMeasureCall, Event.isSendCall,
          Event.isPost]
    · have hp2 : poll k = false := by simpa using hp
      rw [hp2] at h
      simp only [Bool.false_eq_true, if_false] at h
      obtain ⟨h1, h2, h3, evs, h4, h5⟩ := ih _ _ _ h
      refine ⟨h1, h2, h3,
        [Event.wifiStatus false, Event.delay 500, Event.print Msg.dot] ++ evs, ?_, ?_⟩
      · rw [h4]; simp [Device.emit]
      · simp [List.filter_append, h5, Event.isCallOrPost, Event.isFetchCall,
          Event.isMeasureCall, Event.isSendCall, Event.isPost]

/-- The wait loop ends as soon as one test of the WiFi status succeeds. -/
theorem awaitWiFi_isSome (poll : Nat → Bool) (fuel : Nat) :
    ∀ (k n : Nat) (d : Device), poll (k + n) = true → n < fuel →
      ∃ x, awaitWiFi poll fuel k d = some x := by
  induction fuel with
  | zero => intro k n d _ hn; omega
  | succ f ih =>
    intro k n d hp hn
    unfold awaitWiFi
    by_cases hk : poll k = true
    · refine ⟨d.emit (.wifiStatus true), ?_⟩
      simp [hk]
    · have hk2 : poll k = false := by simpa using hk
      rw [hk2]
      simp only [Bool.false_eq_true, if_false]
      cases n with
      | zero => exact absurd hp hk
      | succ m =>
        have hp2 : poll (k + 1 + m) = true := by
          have : k + 1 + m = k + (m + 1) := by omega
          rw [this]; exact hp
        exact ih (k + 1) m _ hp2 (by omega)

/-- The wait loop never ends while every test of the WiFi status fails. -/
theorem awaitWiFi_none (poll : Nat → Bool) (fuel : Nat) :
    ∀ (k : Nat) (d : Device), (∀ j, j < fuel → poll (k + j) = false) →
      awaitWiFi poll fuel k d = none := by
  induction fuel with
  | zero => intro k d _; rfl
  | succ f ih =>
    intro k d h
    unfold awaitWiFi
    have h0 : poll k = false := by simpa using h 0 (Nat.succ_pos f)
    rw [h0]
    simp only [Bool.false_eq_true, if_false]
    apply ih
    intro j hj
    have : k + 1 + j = k + (j + 1) := by omega
    rw [this]
    exact h (j + 1) (by omega)

theorem setup_eq (L : Nat) (b : BootInput) (fuel : Nat) :
    setup L b fuel =
      (awaitWiFi b.wifiPoll fuel 0 (beforeWait L)).map (fun x =>
        ((fetchLatestUserId b.fetch (x.emit (.print .wifiConnected))).emit
          .buttonBegin).emit .onPressedRegistered) := by
  unfold setup beforeWait
  dsimp only
  cases awaitWiFi b.wifiPoll fuel 0 _ <;> rfl

theorem beforeWait_facts (L : Nat) :
    (beforeWait L).pins L = true ∧ (beforeWait L).pins 32 = true ∧
      (beforeWait L).currentPlayerId = -1 ∧
      (beforeWait L).trace.filter Event.isCallOrPost = [] := by
  refine ⟨?_, ?_, ?_, ?_⟩
  · simp [beforeWait, digitalWrite, Device.emit]
  · simp [beforeWait, digitalWrite, Device.emit]
  · simp [beforeWait, digitalWrite, Device.emit, powerOn]
  · simp [beforeWait, digitalWrite, Device.emit, powerOn, Event.isCallOrPost,
      Event.isFetchCall, Event.isMeasureCall, Event.isSendCall, Event.isPost]

/-- What a completed `setup` leaves behind. -/
theorem setup_some (L : Nat) (b : BootInput) (fuel : Nat) (x : Device)
    (h : setup L b fuel = some x) :
    x.pins L = true ∧ x.pins 32 = true ∧
      x.currentPlayerId = fetchedId b.fetch (-1) ∧
      x.trace.filter Event.isCallOrPost = [Event.enterFetch] ∧
      ∃ evs, x.trace = evs ++ [Event.buttonBegin, Event.onPressedRegistered] := by
  rw [setup_eq] at h
  cases hw : awaitWiFi b.wifiPoll fuel 0 (beforeWait L) with
  | none => rw [hw] at h; simp at h
  | some y =>
    rw [hw] at h
    simp only [Option.map_some', Option.some.injEq] at h
    obtain ⟨hp, hid, _, evs, htr, hev⟩ := awaitWiFi_some _ _ _ _ _ hw
    obtain ⟨b1, b2, b3, b4⟩ := beforeWait_facts L
    subst h
    refine ⟨?_, ?_, ?_, ?_, ?_⟩
    · simp [Device.emit, fetch_pins, hp, b1]
    · simp [Device.emit, fetch_pins, hp, b2]
    · simp [Device.emit, fetch_currentPlayerId, hid, b3]
    · simp [Device.emit, fetch_trace, htr, List.filter_append, hev, b4,
        fetchEvents_callOrPost, Event.isCallOrPost, Event.isFetchCall, Event.isMeasureCall,
        Event.isSendCall, Event.isPost]
    · exact ⟨(fetchLatestUserId b.fetch (y.emit (.print .wifiConnected))).trace,
        by simp [Device.emit]⟩

theorem distanceOfDuration_eq (t : Int) (h0 : 0 ≤ t) (h1 : t ≤ 1000000) :
    distanceOfDuration t = 2 * t / 125 := by
  obtain ⟨n, rfl⟩ := Int.eq_ofNat_of_zero_le h0
  have hn : n ≤ 1000000 := by exact_mod_cast h1
  unfold distanceOfDuration
  rw [Int.natAbs_ofNat, floatDistance_floor n hn]
  rcases Nat.eq_zero_or_pos n with h | h
  · subst h; simp
  · have hs : Int.sign (n : Int) = 1 := Int.sign_eq_one_of_pos (by exact_mod_cast h)
    rw [hs, one_mul]
    push_cast
    rfl

/-! ### Facts about the polling loop -/

theorem read_fires (settle : Nat) (raw : Bool) (now : Nat) (b : Trigger)
    (h : (Trigger.read settle raw now b).2 = true) :
    raw = true ∧ (Trigger.read settle raw now b).1.notified = true := by
  unfold Trigger.read at h ⊢
  cases raw with
  | false => simp at h
  | true =>
    by_cases hc : b.notified = false ∧ settle ≤ now - b.pressedSince.getD now
    · simp [hc]
    · simp [hc] at h

theorem read_held (settle : Nat) (now : Nat) (b : Trigger) (h : b.notified = true) :
    (Trigger.read settle true now b).2 = false ∧
      (Trigger.read settle true now b).1.notified = true := by
  unfold Trigger.read
  simp [h]

theorem read_released (settle : Nat) (now : Nat) (b : Trigger) :
    Trigger.read settle false now b = (Trigger.idle, false) := by
  simp [Trigger.read]

theorem loop_now_lt (settle L : Nat) (w : World) (s : System) :
    s.now < (loop settle L w s).now := by
  unfold loop
  by_cases h : (Trigger.read settle (w.raw s.now) s.now s.button).2 = true
  · simp only [h, if_true]; omega
  · simp only [h]; simp

theorem run_now_mono (settle L : Nat) (w : World) (s0 : System) (m k : Nat) (h : m ≤ k) :
    (run settle L w s0 m).now ≤ (run settle L w s0 k).now := by
  induction k with
  | zero =>
    have : m = 0 := by omega
    subst this; exact le_refl _
  | succ j ih =>
    rcases Nat.eq_or_lt_of_le h with h1 | h1
    · rw [h1]
    · have h2 := ih (by omega)
      have h3 := loop_now_lt settle L w (run settle L w s0 j)
      show _ ≤ (loop settle L w (run settle L w s0 j)).now
      omega

/-- A pass of `loop` looks at the button signal only at the time of its poll. -/
theorem loop_congr (settle L : Nat) (w v : World) (s : System)
    (hraw : v.raw s.now = w.raw s.now) (hin : v.input = w.input) (hbusy : v.busy = w.busy) :
    loop settle L v s = loop settle L w s := by
  unfold loop
  rw [hraw, hin, hbusy]

/-- A press added from `a` to `b` leaves the run unchanged up to and
including the first poll after time `a`'s cycle has started, as long as no
poll falls at or after `a`. -/
theorem run_withPress_before (settle L : Nat) (w : World) (s0 : System) (a b : Nat) :
    ∀ m, (∀ j, j < m → (run settle L w s0 j).now < a) →
      run settle L (w.withPress a b) s0 m = run settle L w s0 m := by
  intro m
  induction m with
  | zero => intro _; rfl
  | succ j ih =>
    intro h
    have hj := ih (fun i hi => h i (by omega))
    show loop settle L (w.withPress a b) (run settle L (w.withPress a b) s0 j) = _
    rw [hj]
    apply loop_congr
    · have := h j (by omega)
      simp [World.withPress]
      intro h1
      omega
    · rfl
    · rfl

/-- After the cycle, the system with the added press runs like the one
without it: same time, device and cycle count at every poll; while the added
press lasts, its button still counts as already notified. -/
theorem run_withPress_after (settle L : Nat) (w : World) (a b : Nat)
    (hrel : ∀ t, a ≤ t → t ≤ b → w.raw t = false) :
    ∀ (k : Nat) (s x : System), SameDevice s x → a < s.now →
      (if s.now ≤ b then x.button.notified = true else x.button = s.button) →
      SameDevice (run settle L w s k) (run settle L (w.withPress a b) x k) := by
  intro k
  induction k with
  | zero => intro s x h _ _; exact h
  | succ j ih =>
    intro s x hsame ha hbtn
    have step : ∀ (w1 : World) (y : System) (j : Nat),
        run settle L w1 y (j + 1) = run settle L w1 (loop settle L w1 y) j := by
      intro w1 y j
      induction j with
      | zero => rfl
      | succ i ihi =>
        show loop settle L w1 (run settle L w1 y (i + 1)) = _
        rw [ihi]; rfl
    rw [step, step]
    rcases s with ⟨t, sb, dev, c⟩
    rcases x with ⟨t2, xb, dev2, c2⟩
    obtain ⟨h1, h2, h3⟩ := hsame
    simp only at h1 h2 h3 ha hbtn
    subst h1 h2 h3
    by_cases hb : t2 ≤ b
    · rw [if_pos hb] at hbtn
      have hw : w.raw t2 = false := hrel _ (le_of_lt ha) hb
      have e1 : loop settle L w ⟨t2, sb, dev2, c2⟩ = ⟨t2 + 1, Trigger.idle, dev2, c2⟩ := by
        simp [loop, hw, read_released]
      rw [e1]
      by_cases hb2 : t2 < b
      · have hv : (w.withPress a b).raw t2 = true := by
          simp only [World.withPress]
          rw [if_pos ⟨le_of_lt ha, hb2⟩]
        have hh := read_held settle t2 xb hbtn
        have e2 : loop settle L (w.withPress a b) ⟨t2, xb, dev2, c2⟩ =
            ⟨t2 + 1, (Trigger.read settle true t2 xb).1, dev2, c2⟩ := by
          simp [loop, hv, hh.1]
        rw [e2]
        apply ih
        · exact ⟨rfl, rfl, rfl⟩
        · show a < t2 + 1
          omega
        · have : t2 + 1 ≤ b := hb2
          simp only [this, if_true]
          exact hh.2
      · have hv : (w.withPress a b).raw t2 = false := by
          simp only [World.withPress]
          rw [if_neg (by omega), hw]
        have e2 : loop settle L (w.withPress a b) ⟨t2, xb, dev2, c2⟩ =
            ⟨t2 + 1, Trigger.idle, dev2, c2⟩ := by
          simp [loop, hv, read_released]
        rw [e2]
        apply ih
        · exact ⟨rfl, rfl, rfl⟩
        · show a < t2 + 1
          omega
        · have : ¬ t2 + 1 ≤ b := by omega
          simp only [this, if_false]
    · rw [if_neg hb] at hbtn
      subst hbtn
      have e2 : loop settle L (w.withPress a b) ⟨t2, xb, dev2, c2⟩ =
          loop settle L w ⟨t2, xb, dev2, c2⟩ := by
        apply loop_congr
        · simp only [World.withPress]
          rw [if_neg (by omega)]
        · rfl
        · rfl
      rw [e2]
      have hlt := loop_now_lt settle L w ⟨t2, xb, dev2, c2⟩
      apply ih
      · exact ⟨rfl, rfl, rfl⟩
      · simp only at hlt; omega
      · have : ¬ (loop settle L w ⟨t2, xb, dev2, c2⟩).now ≤ b := by
          simp only at hlt; omega
        simp only [this, if_false]

theorem run_add (settle L : Nat) (w : World) (s0 : System) (m k : Nat) :
    run settle L w s0 (m + k) = run settle L w (run settle L w s0 m) k := by
  induction k with
  | zero => rfl
  | succ j ih =>
    show loop settle L w (run settle L w s0 (m + j)) = _
    rw [ih]; rfl

/-- The order of the calls in a cycle, and the single echo timing. -/
theorem cycle_call_order (L : Nat) (i : CycleInput) (d : Device) :
    (newEvents d (onPressed L i d)).filter Event.isCallOrPost =
        Event.enterFetch :: Event.enterMeasure ::
          (newEvents d (onPressed L i d)).filter Event.isSubmission ∧
      (newEvents d (onPressed L i d)).filter Event.isPulseIn =
        [Event.pulseIn echoPin i.duration] := by
  constructor
  · rw [onPressed_submission, onPressed_newEvents]
    unfold workEvents
    simp only [List.filter_append, fetchEvents_callOrPost, measureEvents_callOrPost,
      cooldownEvents_callOrPost, List.append_nil]
    by_cases h : fetchedId i.fetch d.currentPlayerId > 0
    · simp only [h, if_true, sendEvents_callOrPost, sendEvents_submission]
      simp [Event.isCallOrPost, Event.isFetchCall, Event.isMeasureCall, Event.isSendCall,
        Event.isPost]
    · simp [h, Event.isCallOrPost, Event.isFetchCall, Event.isMeasureCall, Event.isSendCall,
        Event.isPost]
  · rw [onPressed_newEvents]
    unfold workEvents
    simp only [List.filter_append, fetchEvents_pulseIn]
    by_cases h : fetchedId i.fetch d.currentPlayerId > 0
    · simp [h, sendEvents_pulseIn, measureEvents, cooldownEvents, Event.isPulseIn]
    · simp [h, measureEvents, cooldownEvents, Event.isPulseIn]

/-! ## The claims -/

/-- C1. Stale retention: when the identity resolution fails (no connectivity,
or a status other than 200, or a body that does not parse), `currentPlayerId`
after `fetchLatestUserId` and after the whole cycle equals its value before;
`measureDistance` and `sendDataToServer` never modify it. -/
theorem stale_retention (L : Nat) (i : CycleInput) (d : Device)
    (hfail : i.fetch.wifiConnected = false ∨ i.fetch.httpCode ≠ 200 ∨
      i.fetch.body = JsonBody.parseError) :
    (fetchLatestUserId i.fetch d).currentPlayerId = d.currentPlayerId ∧
    (onPressed L i d).currentPlayerId = d.currentPlayerId ∧
    (∀ (t : Int) (x : Device), (measureDistance t x).2.currentPlayerId = x.currentPlayerId) ∧
    (∀ (w : Bool) (c p m : Int) (x : Device),
      (sendDataToServer w c p m x).currentPlayerId = x.currentPlayerId) := by
  have hid : fetchedId i.fetch d.currentPlayerId = d.currentPlayerId := by
    unfold fetchedId
    rcases hfail with h | h | h
    · simp [h]
    · simp [h]
    · simp [h]
  refine ⟨?_, ?_, measure_currentPlayerId, send_currentPlayerId⟩
  · rw [fetch_currentPlayerId, hid]
  · rw [onPressed_currentPlayerId, hid]

theorem stale_retention_witness :
    offlineCycle.fetch.wifiConnected = false ∧
      (onPressed 2 offlineCycle resolvedDevice).currentPlayerId =
        resolvedDevice.currentPlayerId :=
  ⟨rfl, (stale_retention 2 offlineCycle resolvedDevice (Or.inl rfl)).2.1⟩

/-- C2. No submission without a resolved identity: when `currentPlayerId <= 0`
after the resolution step of a cycle, the cycle neither calls
`sendDataToServer` nor issues a POST, whatever the echo duration is. -/
theorem no_submission_without_identity (L : Nat) (i : CycleInput) (d : Device)
    (h : (fetchLatestUserId i.fetch d).currentPlayerId ≤ 0) :
    ∀ e ∈ newEvents d (onPressed L i d), e.isSendCall = false ∧ e.isPost = false := by
  rw [fetch_currentPlayerId] at h
  have hn : ¬ fetchedId i.fetch d.currentPlayerId > 0 := not_lt.mpr h
  apply not_submission_of_filter_nil
  rw [onPressed_submission, if_neg hn]

theorem no_submission_without_identity_witness :
    (fetchLatestUserId offlineCycle.fetch powerOn).currentPlayerId ≤ 0 ∧
      ∀ e ∈ newEvents powerOn (onPressed 2 offlineCycle powerOn),
        e.isSendCall = false ∧ e.isPost = false :=
  ⟨by decide, no_submission_without_identity 2 offlineCycle powerOn (by decide)⟩

/-- C3. Submission payload: in a cycle with the WiFi connected, in which the
lookup answers status 200 with `user_id = n > 0` and the measurement of the
cycle is `m` (the value `measureDistance` returns for the echo of this
cycle), exactly one call of `sendDataToServer` is made and exactly one POST is
issued, both with `playerId = n` and `distance = m`; `m` is also the value
left in `measuredDistance`. -/
theorem submission_payload (L : Nat) (i : CycleInput) (d : Device) (n : Int)
    (hw : i.fetch.wifiConnected = true) (hs : i.wifiAtSend = true)
    (hc : i.fetch.httpCode = 200) (hb : i.fetch.body = JsonBody.document (some n))
    (hn : 0 < n) :
    (newEvents d (onPressed L i d)).filter Event.isPost =
        [Event.httpPost n (measureDistance i.duration (fetchLatestUserId i.fetch d)).1
          i.postCode] ∧
      (newEvents d (onPressed L i d)).filter Event.isSendCall =
        [Event.enterSend n (measureDistance i.duration (fetchLatestUserId i.fetch d)).1] ∧
      (onPressed L i d).measuredDistance =
        (measureDistance i.duration (fetchLatestUserId i.fetch d)).1 ∧
      (onPressed L i d).currentPlayerId = n := by
  have hid : fetchedId i.fetch d.currentPlayerId = n := by
    simp [fetchedId, hw, hc, hb, JsonBody.userIdAsInt]
  have hpos : fetchedId i.fetch d.currentPlayerId > 0 := by rw [hid]; exact hn
  refine ⟨?_, ?_, ?_, ?_⟩
  · rw [filter_isPost_eq, onPressed_submission, if_pos hpos, hid, hs, measure_value]
    simp [Event.isPost]
  · rw [filter_isSendCall_eq, onPressed_submission, if_pos hpos, hid, hs, measure_value]
    simp [Event.isPost, Event.isSendCall]
  · rw [onPressed_measuredDistance, measure_value]
  · rw [onPressed_currentPlayerId, hid]

theorem submission_payload_witness :
    (newEvents powerOn (onPressed 2 scenarioB powerOn)).filter Event.isPost =
        [Event.httpPost 3 57 200] ∧
      (newEvents powerOn (onPressed 2 scenarioD powerOn)).filter Event.isPost =
        [Event.httpPost 3 0 200] :=
  ⟨(submission_payload 2 scenarioB powerOn 3 rfl rfl rfl rfl (by decide)).1,
    (submission_payload 2 scenarioD powerOn 3 rfl rfl rfl rfl (by decide)).1⟩

/-- C4. Measurement is unconditional: among the calls of the three top-level
functions and the POSTs of a cycle, the first is the single call of
`fetchLatestUserId`, the second the single call of `measureDistance`, and all
that follows belongs to the submission; the echo timing `pulseIn` is performed
exactly once.  This holds for every outcome of the lookup and every prior
token. -/
theorem measurement_unconditional (L : Nat) (i : CycleInput) (d : Device) :
    (newEvents d (onPressed L i d)).filter Event.isCallOrPost =
        Event.enterFetch :: Event.enterMeasure ::
          (newEvents d (onPressed L i d)).filter Event.isSubmission ∧
      (newEvents d (onPressed L i d)).filter Event.isPulseIn =
        [Event.pulseIn echoPin i.duration] :=
  cycle_call_order L i d

/-- C5. Cooldown is unconditional and restores the idle state: every cycle,
whatever the lookup, the measurement and the submission did, issues at most
one POST and then ends with: `LED_BUILTIN` low, pin 32 low, a delay of
4000 ms, `LED_BUILTIN` high, pin 32 high.  After every cycle, and after every
completed `setup`, both indicator outputs are high. -/
theorem cooldown_unconditional (L : Nat) (i : CycleInput) (d : Device) :
    (∃ work, newEvents d (onPressed L i d) =
        work ++ [Event.digitalWrite L false, Event.digitalWrite 32 false, Event.delay 4000,
          Event.digitalWrite L true, Event.digitalWrite 32 true] ∧
        (work.filter Event.isPost).length ≤ 1) ∧
      ((newEvents d (onPressed L i d)).filter Event.isPost).length ≤ 1 ∧
      ((onPressed L i d).pins L = true ∧ (onPressed L i d).pins 32 = true) ∧
      (∀ (b : BootInput) (fuel : Nat) (x : Device), setup L b fuel = some x →
        x.pins L = true ∧ x.pins 32 = true) := by
  have hpost : ((newEvents d (onPressed L i d)).filter Event.isPost).length ≤ 1 := by
    rw [filter_isPost_eq, onPressed_submission]
    by_cases h : fetchedId i.fetch d.currentPlayerId > 0 <;> cases i.wifiAtSend <;>
      simp [h, Event.isPost]
  refine ⟨⟨workEvents i d.currentPlayerId, ?_, ?_⟩, hpost, onPressed_pins L i d, ?_⟩
  · rw [onPressed_newEvents]; rfl
  · have h2 := hpost
    rw [onPressed_newEvents, List.filter_append, List.length_append] at h2
    omega
  · intro b fuel x hx
    have h := setup_some L b fuel x hx
    exact ⟨h.1, h.2.1⟩

theorem cooldown_unconditional_witness :
    ∃ x, setup 2 { wifiPoll := fun _ => true, fetch := offlineCycle.fetch } 1 = some x ∧
      x.pins 2 = true ∧ x.pins 32 = true :=
  ⟨_, rfl, (cooldown_unconditional 2 offlineCycle powerOn).2.2.2
    { wifiPoll := fun _ => true, fetch := offlineCycle.fetch } 1 _ rfl⟩

/-- C7, as amended. When the WiFi is not connected at the lookup and the
retained token has id > 0, the lookup makes no request and keeps the token,
and `sendDataToServer` is still called with (token id, fresh measurement); but
`sendDataToServer` tests the WiFi status itself and issues the POST exactly
when that test succeeds: without connectivity it appends only its entry and
the status test. -/
theorem submission_checks_connectivity (L : Nat) (i : CycleInput) (d : Device)
    (hw : i.fetch.wifiConnected = false) (hid : d.currentPlayerId > 0) :
    (onPressed L i d).currentPlayerId = d.currentPlayerId ∧
      (newEvents d (onPressed L i d)).filter Event.isRequest =
        (if i.wifiAtSend then
          [Event.httpPost d.currentPlayerId (distanceOfDuration i.duration) i.postCode]
        else []) ∧
      (newEvents d (onPressed L i d)).filter Event.isSendCall =
        [Event.enterSend d.currentPlayerId (distanceOfDuration i.duration)] ∧
      (∀ (c p m : Int) (x : Device),
        newEvents x (sendDataToServer false c p m x) =
          [Event.enterSend p m, Event.wifiStatus false]) := by
  have hf : fetchedId i.fetch d.currentPlayerId = d.currentPlayerId := by
    simp [fetchedId, hw]
  have hpos : fetchedId i.fetch d.currentPlayerId > 0 := by rw [hf]; exact hid
  refine ⟨?_, ?_, ?_, ?_⟩
  · rw [onPressed_currentPlayerId, hf]
  · rw [onPressed_newEvents]
    unfold workEvents
    rw [if_pos hpos, hf]
    cases hs : i.wifiAtSend <;> by_cases hc : i.postCode > 0 <;>
      simp [fetchEvents, measureEvents, sendEvents, cooldownEvents, hw, hc,
        Event.isRequest]
  · rw [filter_isSendCall_eq, onPressed_submission, if_pos hpos, hf]
    cases i.wifiAtSend <;> simp [Event.isSendCall]
  · intro c p m x
    apply newEvents_of_trace
    rw [send_trace]
    simp [sendEvents]

theorem submission_checks_connectivity_witness :
    offlineCycle.fetch.wifiConnected = false ∧ resolvedDevice.currentPlayerId > 0 ∧
      (newEvents resolvedDevice (onPressed 2 offlineCycle resolvedDevice)).filter
        Event.isRequest = [] :=
  ⟨rfl, by decide,
    (submission_checks_connectivity 2 offlineCycle resolvedDevice rfl (by decide)).2.1⟩

/-- C7, as stated, fails: with the token resolved to player 3 and the network
down throughout the cycle, `sendDataToServer` is entered with (3, 57) but no
POST is issued. -/
theorem offline_cycle_sends_nothing :
    resolvedDevice.currentPlayerId = 3 ∧
      offlineCycle.fetch.wifiConnected = false ∧ offlineCycle.wifiAtSend = false ∧
      (newEvents resolvedDevice (onPressed 2 offlineCycle resolvedDevice)).filter
        Event.isSubmission = [Event.enterSend 3 57] ∧
      ¬ ∃ e ∈ newEvents resolvedDevice (onPressed 2 offlineCycle resolvedDevice),
        e.isPost = true := by
  refine ⟨rfl, rfl, rfl, by decide, by decide⟩

/-- C9. Distance conversion: for an echo duration `t` with
`0 <= t <= 1000000`, `measureDistance` returns `floor(2 * t / 125)`, the
integer part of the exact value of `t * 0.032 / 2`; the result is not
negative, a duration of 0 gives 0, and the result does not decrease when the
duration grows. -/
theorem distance_conversion (t : Int) (h0 : 0 ≤ t) (h1 : t ≤ 1000000) (d : Device) :
    (measureDistance t d).1 = 2 * t / 125 ∧
      0 ≤ (measureDistance t d).1 ∧
      (measureDistance 0 d).1 = 0 ∧
      ∀ u : Int, t ≤ u → u ≤ 1000000 →
        (measureDistance t d).1 ≤ (measureDistance u d).1 := by
  rw [measure_value, measure_value, distanceOfDuration_eq t h0 h1]
  refine ⟨rfl, by omega, by decide, ?_⟩
  intro u htu hu
  rw [measure_value, distanceOfDuration_eq u (le_trans h0 htu) hu]
  omega

theorem distance_conversion_witness :
    (0 : Int) ≤ 3563 ∧ (3563 : Int) ≤ 1000000 ∧ (measureDistance 3563 powerOn).1 = 57 :=
  ⟨by decide, by decide,
    (distance_conversion 3563 (by decide) (by decide) powerOn).1.trans (by decide)⟩

/-- C10. A well-formed response without the identity field clears a valid
token: with the WiFi connected, status 200 and a body that parses but has no
`user_id`, `currentPlayerId` becomes 0 whatever it was before, and the cycle
makes no submission. -/
theorem missing_user_id_clears_token (L : Nat) (i : CycleInput) (d : Device)
    (hw : i.fetch.wifiConnected = true) (hc : i.fetch.httpCode = 200)
    (hb : i.fetch.body = JsonBody.document none) :
    (fetchLatestUserId i.fetch d).currentPlayerId = 0 ∧
      (onPressed L i d).currentPlayerId = 0 ∧
      ∀ e ∈ newEvents d (onPressed L i d), e.isSendCall = false ∧ e.isPost = false := by
  have hf : fetchedId i.fetch d.currentPlayerId = 0 := by
    simp [fetchedId, hw, hc, hb, JsonBody.userIdAsInt]
  refine ⟨?_, ?_, ?_⟩
  · rw [fetch_currentPlayerId, hf]
  · rw [onPressed_currentPlayerId, hf]
  · apply not_submission_of_filter_nil
    rw [onPressed_submission, hf]
    simp

theorem missing_user_id_clears_token_witness :
    resolvedDevice.currentPlayerId = 3 ∧
      (onPressed 2 emptyDocumentCycle resolvedDevice).currentPlayerId = 0 :=
  ⟨rfl, (missing_user_id_clears_token 2 emptyDocumentCycle resolvedDevice rfl rfl rfl).2.1⟩

/-- C6. Drop, never queue: let a cycle start at the `n`-th poll of the
button and let one more press begin at time `a` while that cycle is running
and last until time `b` (before or after the end of the cycle), the button
being otherwise released from `a` to `b`.  Then at every poll the device (its
trace of sensor and network operations, `currentPlayerId`, its outputs), the
number of cycles run and the time are the same as without that press. -/
theorem press_during_cycle_dropped (settle L : Nat) (w : World) (s0 : System)
    (n a b : Nat)
    (hfire : (Trigger.read settle (w.raw (run settle L w s0 n).now)
      (run settle L w s0 n).now (run settle L w s0 n).button).2 = true)
    (hstart : (run settle L w s0 n).now < a)
    (hend : a < (run settle L w s0 n).now + (w.busy (run settle L w s0 n).cycles + 4000))
    (hrel : ∀ t, a ≤ t → t ≤ b → w.raw t = false) :
    ∀ m, (run settle L (w.withPress a b) s0 m).device = (run settle L w s0 m).device ∧
      (run settle L (w.withPress a b) s0 m).cycles = (run settle L w s0 m).cycles ∧
      (run settle L (w.withPress a b) s0 m).now = (run settle L w s0 m).now := by
  intro m
  have hpre : ∀ j, j ≤ n + 1 →
      run settle L (w.withPress a b) s0 j = run settle L w s0 j := by
    intro j hj
    apply run_withPress_before
    intro i hi
    have := run_now_mono settle L w s0 i n (by omega)
    omega
  by_cases hm : m ≤ n + 1
  · rw [hpre m hm]
    exact ⟨rfl, rfl, rfl⟩
  · obtain ⟨k, rfl⟩ := Nat.exists_eq_add_of_le (le_of_lt (Nat.lt_of_not_le hm))
    rw [run_add settle L (w.withPress a b), run_add settle L w, hpre (n + 1) (le_refl _)]
    have hnext : run settle L w s0 (n + 1) =
        { now := (run settle L w s0 n).now + (w.busy (run settle L w s0 n).cycles + 4000)
          button := (Trigger.read settle (w.raw (run settle L w s0 n).now)
            (run settle L w s0 n).now (run settle L w s0 n).button).1
          device := onPressed L (w.input (run settle L w s0 n).cycles)
            (run settle L w s0 n).device
          cycles := (run settle L w s0 n).cycles + 1 } := by
      show loop settle L w (run settle L w s0 n) = _
      unfold loop
      simp only [hfire, if_true]
    have h := run_withPress_after settle L w a b hrel k (run settle L w s0 (n + 1))
      (run settle L w s0 (n + 1)) ⟨rfl, rfl, rfl⟩ (by rw [hnext]; exact hend)
      (by
        rw [hnext]
        by_cases hb : (run settle L w s0 n).now +
            (w.busy (run settle L w s0 n).cycles + 4000) ≤ b
        · simp only [hb, if_true]
          exact (read_fires _ _ _ _ hfire).2
        · simp only [hb, if_false])
    exact ⟨h.2.1, h.2.2, h.1⟩

set_option maxRecDepth 20000

theorem press_during_cycle_dropped_witness :
    (run 35 2 scenarioC afterBoot 35).now = 35 ∧
      (run 35 2 scenarioC afterBoot 36).cycles = 1 ∧
      (run 35 2 (scenarioC.withPress 1035 5000) afterBoot 1200).device =
        (run 35 2 scenarioC afterBoot 1200).device :=
  ⟨by decide, by decide,
    (press_during_cycle_dropped 35 2 scenarioC afterBoot 35 1035 5000 (by decide) (by decide)
      (by decide) (by intro t h1 _; simp [scenarioC]; omega) 1200).1⟩

/-- C8, as stated, fails: while the WiFi never reports a connection, `setup`
never gets past its wait loop, whatever the number of tests allowed. -/
theorem setup_blocks_while_offline :
    ¬ ∃ fuel, (setup 2 bootOffline fuel).isSome = true := by
  rintro ⟨fuel, h⟩
  rw [setup_eq, awaitWiFi_none _ _ _ _ (fun _ _ => rfl)] at h
  simp at h

/-- C8, as amended. `setup` waits until the WiFi reports a connection: it
does not complete while every test of the status fails, and it completes once
a test succeeds.  When the lookup made at boot then fails (the connection is
gone again, or the status is not 200, or the body does not parse), `setup`
has made exactly one call of `fetchLatestUserId` and no submission, leaves
`currentPlayerId` at -1, and ends by registering the button handler; a later
cycle whose lookup fails too measures the distance once and makes no
submission. -/
theorem boot_waits_for_wifi (L : Nat) (b : BootInput) (k fuel : Nat)
    (hk : b.wifiPoll k = true) (hfuel : k < fuel)
    (hfail : b.fetch.wifiConnected = false ∨ b.fetch.httpCode ≠ 200 ∨
      b.fetch.body = JsonBody.parseError) :
    (∀ n, (∀ j, j < n → b.wifiPoll j = false) → setup L b n = none) ∧
      ∃ x, setup L b fuel = some x ∧ x.currentPlayerId = -1 ∧
        x.trace.filter Event.isCallOrPost = [Event.enterFetch] ∧
        (∃ evs, x.trace = evs ++ [Event.buttonBegin, Event.onPressedRegistered]) ∧
        ∀ i : CycleInput,
          (i.fetch.wifiConnected = false ∨ i.fetch.httpCode ≠ 200 ∨
            i.fetch.body = JsonBody.parseError) →
          (newEvents x (onPressed L i x)).filter Event.isPulseIn =
              [Event.pulseIn echoPin i.duration] ∧
            (onPressed L i x).measuredDistance = (measureDistance i.duration x).1 ∧
            (onPressed L i x).currentPlayerId = -1 ∧
            ∀ e ∈ newEvents x (onPressed L i x), e.isSendCall = false ∧ e.isPost = false := by
  have hid : ∀ (f : FetchInput) (old : Int),
      (f.wifiConnected = false ∨ f.httpCode ≠ 200 ∨ f.body = JsonBody.parseError) →
      fetchedId f old = old := by
    intro f old h
    unfold fetchedId
    rcases h with h | h | h <;> simp [h]
  constructor
  · intro n hn
    rw [setup_eq, awaitWiFi_none _ _ _ _ (fun j hj => by simpa using hn j hj)]
    rfl
  · obtain ⟨y, hy⟩ := awaitWiFi_isSome b.wifiPoll fuel 0 k (beforeWait L)
      (by simpa using hk) hfuel
    have hsetup : setup L b fuel = some
        (((fetchLatestUserId b.fetch (y.emit (.print .wifiConnected))).emit
          .buttonBegin).emit .onPressedRegistered) := by
      rw [setup_eq, hy]; rfl
    obtain ⟨_, _, h3, h4, h5⟩ := setup_some L b fuel _ hsetup
    rw [hid b.fetch (-1) hfail] at h3
    refine ⟨_, hsetup, h3, h4, h5, ?_⟩
    intro i hi
    have hx := hid i.fetch (-1) hi
    refine ⟨(cycle_call_order L i _).2, ?_, ?_, ?_⟩
    · rw [onPressed_measuredDistance, measure_value]
    · rw [onPressed_currentPlayerId, h3, hx]
    · apply not_submission_of_filter_nil
      rw [onPressed_submission, h3, hx]
      simp

theorem boot_waits_for_wifi_witness :
    bootFlaky.wifiPoll 2 = true ∧
      ∃ x, setup 2 bootFlaky 3 = some x ∧ x.currentPlayerId = -1 :=
  ⟨rfl, by
    obtain ⟨x, h1, h2, _⟩ :=
      (boot_waits_for_wifi 2 bootFlaky 2 3 rfl (by decide) (Or.inl rfl)).2
    exact ⟨x, h1, h2⟩⟩

end DistanceGame
